import Mathlib

/-!
Verification of `scalabel/eval/mots.py` (BDD100K segmentation tracking
evaluation with CLEAR MOT metrics).

Shallow embedding conventions:
* A binary mask (an RLE in the Python code) is modelled as its set of
  foreground pixels, `Finset ℕ`.  `mask_to_rle` composed with the inverse
  decoding is the identity on masks, so RLE encoding is modelled as the
  identity.
* Floating point numbers are modelled as exact rationals `ℚ`; the NaN
  sentinel used for unmatchable cost entries is modelled by `Option ℚ`
  with `none` standing for NaN.
* Python `assert` failures and `raise` are modelled as `Except EvalError`.
* The external `motmetrics` accumulator is observed through its `update`
  calls: `acc_single_video_mots` returns, per class, the list of
  `(gt_ids, pred_ids, distances)` triples passed to
  `MOTAccumulator.update`; a skipped call leaves that list untouched.
-/

attribute [local semireducible] Rat.mul Rat.add Rat.sub Rat.inv

namespace ScalabelMots

/-- A segmentation mask, as its set of foreground pixels. -/
abbrev Mask := Finset ℕ

/-- Image canvas size (`ImageSize` in `scalabel.label.typing`). -/
structure ImageSize where
  width : ℕ
  height : ℕ
deriving DecidableEq

/-- A 2D polygon outline.  Modelled from the spec: polygon rasterization
internals are out of scope ("rasterized from a polygon outline"), so a
polygon is characterized abstractly by the mask it rasterizes to at each
canvas size. -/
structure Poly2D where
  rast : ImageSize → Mask

/-- A labeled object (`Label` in `scalabel.label.typing`), restricted to the
fields read by `mots.py`.  Modelled from the spec: `check_crowd` and
`check_ignored` (from `scalabel.label.utils`, not part of the analysed
source) read the crowd/ignored attributes of a label; these attributes are
modelled as boolean fields. -/
structure Label where
  id : ℤ
  category : String
  rle : Option Mask
  poly2d : Option Poly2D
  crowd : Bool
  ignored : Bool

/-- A video frame: optional frame index and optional object list. -/
structure Frame where
  frameIndex : Option ℕ
  labels : Option (List Label)

/-- A video is a list of frames. -/
abbrev Video := List Frame

/-- The error taxonomy of the evaluation.  `configError` models the
`assert image_size is not None` failure, `unknownCategory` the
`KeyError` for an unrecognized category, and `shapeMismatch` the
alignment assertions between ground truth and predictions. -/
inductive EvalError where
  | configError : EvalError
  | unknownCategory : String → EvalError
  | shapeMismatch : EvalError
deriving DecidableEq

/-- Decidable equality of computation outcomes. -/
instance {ε α : Type} [DecidableEq ε] [DecidableEq α] :
    DecidableEq (Except ε α) := fun a b =>
  match a, b with
  | .ok x, .ok y =>
    if h : x = y then .isTrue (by rw [h]) else .isFalse (by simp [h])
  | .error e, .error f =>
    if h : e = f then .isTrue (by rw [h]) else .isFalse (by simp [h])
  | .ok _, .error _ => .isFalse (by simp)
  | .error _, .ok _ => .isFalse (by simp)

/-- Modelled from the spec: `check_crowd` (`scalabel.label.utils`, not in
the analysed source) reports whether a label carries the crowd attribute. -/
def check_crowd (l : Label) : Bool := l.crowd

/-- Modelled from the spec: `check_ignored` (`scalabel.label.utils`, not in
the analysed source) reports whether a label carries the ignored
attribute. -/
def check_ignored (l : Label) : Bool := l.ignored

/-- Modelled from the spec: `poly2ds_to_mask` (`scalabel.label.transforms`,
not in the analysed source) rasterizes a polygon outline on a canvas of the
given size. -/
def poly2ds_to_mask (size : ImageSize) (p : Poly2D) : Mask := p.rast size

/-- Modelled from the spec: `mask_to_rle` (`scalabel.label.transforms`, not
in the analysed source) is a lossless run-length encoding of a mask; since
masks are modelled extensionally as pixel sets, the encoding is the
identity. -/
def mask_to_rle (m : Mask) : Mask := m

/-- Intersection over union of two masks (`pycocotools.mask.iou` with
`iscrowd = False`); `0` when both masks are empty. -/
def maskIoU (a b : Mask) : ℚ :=
  if (a ∪ b).card = 0 then 0 else ((a ∩ b).card : ℚ) / ((a ∪ b).card : ℚ)

/-- Intersection over foreground of a prediction mask against an ignore
region (`pycocotools.mask.iou` with `iscrowd = True` on the second
argument): intersection divided by the prediction's area; `0` for an empty
prediction. -/
def maskIoF (pred ig : Mask) : ℚ :=
  if pred.card = 0 then 0 else ((pred ∩ ig).card : ℚ) / (pred.card : ℚ)

/-- Result of `parse_objects`: detection masks, their class indices, their
track ids, and the pooled ignore-region masks. -/
structure Parsed where
  rles : List Mask
  labels : List ℕ
  ids : List ℤ
  ignores : List Mask
deriving DecidableEq

/-- Mask resolution step of `parse_objects` (`mots.py` lines 52-60): native
mask if present, else polygon rasterization (requiring a canvas size), else
no mask. -/
def resolve_mask (image_size : Option ImageSize) (obj : Label) :
    Except EvalError (Option Mask) :=
  match obj.rle with
  | some r => .ok (some r)
  | none =>
    match obj.poly2d with
    | some p =>
      match image_size with
      | some sz => .ok (some (mask_to_rle (poly2ds_to_mask sz p)))
      | none => .error .configError
    | none => .ok none

/-- `parse_objects` (`mots.py` lines 43-74): resolve each object's mask,
skip objects with no mask representation, classify by category (unknown
categories raise unless `ignore_unknown_cats`), route crowd/ignored objects
to the ignore list and the rest to the detection lists. -/
def parse_objects (classes : List String) (ignore_unknown_cats : Bool)
    (image_size : Option ImageSize) :
    List Label → Except EvalError Parsed
  | [] => .ok ⟨[], [], [], []⟩
  | obj :: rest =>
    match resolve_mask image_size obj with
    | .error e => .error e
    | .ok none => parse_objects classes ignore_unknown_cats image_size rest
    | .ok (some rle) =>
      if obj.category ∈ classes then
        match parse_objects classes ignore_unknown_cats image_size rest with
        | .error e => .error e
        | .ok t =>
          if check_crowd obj || check_ignored obj then
            .ok ⟨t.rles, t.labels, t.ids, rle :: t.ignores⟩
          else
            .ok ⟨rle :: t.rles, classes.indexOf obj.category :: t.labels,
                 obj.id :: t.ids, t.ignores⟩
      else
        if ignore_unknown_cats then
          parse_objects classes ignore_unknown_cats image_size rest
        else
          .error (.unknownCategory obj.category)

/-- A cost matrix: rows index ground-truth objects, columns index
predictions; `none` models the NaN ("unmatchable") sentinel.  `ncols`
records the column count explicitly so that zero-row matrices keep their
shape (as numpy arrays do). -/
structure DistMatrix where
  ncols : ℕ
  rows : List (List (Option ℚ))
deriving DecidableEq

/-- Entry of a cost matrix at row `r`, column `c`; out-of-range entries
read as the unmatchable sentinel. -/
def entry (D : DistMatrix) (r c : ℕ) : Option ℚ :=
  match D.rows.get? r with
  | some row => (row.get? c).getD none
  | none => none

/-- Cost-matrix construction (`mots.py` lines 126-139): NaN-filled with a
zero dimension when exactly one side is empty, otherwise
`distances = 1 - iou`, with entries exceeding `1 - iou_thr` replaced by
NaN. -/
def buildDist (iou_thr : ℚ) (gt_rles pred_rles : List Mask) : DistMatrix :=
  if gt_rles.length = 0 ∧ pred_rles.length ≠ 0 then
    ⟨pred_rles.length, []⟩
  else if gt_rles.length ≠ 0 ∧ pred_rles.length = 0 then
    ⟨0, gt_rles.map (fun _ => [])⟩
  else
    ⟨pred_rles.length,
     gt_rles.map (fun g =>
       pred_rles.map (fun p =>
         let d := 1 - maskIoU g p
         if 1 - iou_thr < d then none else some d))⟩

/-- All ways to pick `k` distinct values, in order, from the available
list. -/
def injections : ℕ → List ℕ → List (List ℕ)
  | 0, _ => [[]]
  | k + 1, avail =>
    avail.flatMap (fun c =>
      (injections k (avail.erase c)).map (fun cs => c :: cs))

/-- All rectangular assignments of an `m × n` matrix: sets of
`(row, column)` pairs matching every index on the smaller side to distinct
indices on the larger side. -/
def assignmentsOf (m n : ℕ) : List (List (ℕ × ℕ)) :=
  if m ≤ n then
    (injections m (List.range n)).map (fun cs => (List.range m).zip cs)
  else
    (injections n (List.range m)).map (fun rs => rs.zip (List.range n))

/-- Surrogate infinite cost for unmatchable entries, strictly larger than
any finite assignment cost of the matrix (the `motmetrics` solver replaces
non-finite edges by such an expensive finite cost before solving). -/
def INF (D : DistMatrix) : ℚ :=
  1 + 2 * (D.rows.map (fun row => (row.map (fun e => |e.getD 0|)).sum)).sum

/-- Total cost of an assignment, with unmatchable entries priced at
`INF D`. -/
def assignCost (D : DistMatrix) (a : List (ℕ × ℕ)) : ℚ :=
  (a.map (fun rc => (entry D rc.1 rc.2).getD (INF D))).sum

/-- Minimum-cost rectangular assignment
(`mm.lap.linear_sum_assignment`; per the spec a standard rectangular
minimum-weight bipartite matching with unmatchable entries treated as
infinite cost).  Deterministically returns a cost-minimizing assignment. -/
def linear_sum_assignment (D : DistMatrix) : List (ℕ × ℕ) :=
  ((assignmentsOf D.rows.length D.ncols).argmin (assignCost D)).getD []

/-- The false-positive-candidate flags (`mots.py` lines 142-146): start all
true, and clear the flag of every prediction matched by the assignment
through a finite cost entry. -/
def computeFps (D : DistMatrix) (sol : List (ℕ × ℕ)) (npred : ℕ) :
    List Bool :=
  sol.foldl
    (fun fps rc => if (entry D rc.1 rc.2).isSome then fps.set rc.2 false else fps)
    (List.replicate npred true)

/-- Keep the elements of `xs` whose flag is true (boolean-mask indexing). -/
def filterByFlags (xs : List α) (flags : List Bool) : List α :=
  (xs.zip flags).filterMap (fun xb => if xb.2 then some xb.1 else none)

/-- Number of true flags. -/
def countTrue (flags : List Bool) : ℕ := (flags.filter id).length

/-- The per-prediction ignore overlap flags (`mots.py` lines 147-153):
whether some ignore region overlaps the prediction strictly beyond the IoF
threshold. -/
def iofIgnoreFlags (ignore_iof_thr : ℚ) (pred_rles_c gt_ignores : List Mask) :
    List Bool :=
  pred_rles_c.map (fun pm =>
    gt_ignores.any (fun ig => decide (ignore_iof_thr < maskIoF pm ig)))

/-- The survivor flags of the ignore filter (`mots.py` line 155):
`valid_inds = not (fps and ignores)`. -/
def validFlags (ignore_iof_thr : ℚ) (pred_rles_c gt_ignores : List Mask)
    (D : DistMatrix) : List Bool :=
  List.zipWith (fun f g => !(f && g))
    (computeFps D (linear_sum_assignment D) pred_rles_c.length)
    (iofIgnoreFlags ignore_iof_thr pred_rles_c gt_ignores)

/-- The ignore filter (`mots.py` lines 140-157): assign, flag unmatched
predictions, drop those overlapping an ignore region beyond the IoF
threshold, and restrict both the prediction ids and the matrix columns to
the surviving predictions. -/
def ignoreFilter (ignore_iof_thr : ℚ) (pred_rles_c : List Mask)
    (pred_ids_c : List ℤ) (gt_ignores : List Mask) (D : DistMatrix) :
    List ℤ × DistMatrix :=
  (filterByFlags pred_ids_c (validFlags ignore_iof_thr pred_rles_c gt_ignores D),
   ⟨countTrue (validFlags ignore_iof_thr pred_rles_c gt_ignores D),
    D.rows.map (fun row =>
      filterByFlags row (validFlags ignore_iof_thr pred_rles_c gt_ignores D))⟩)

/-- Prediction ids and cost matrix after the optional ignore filter
(`mots.py` lines 126-157): the filter runs only when both ignore regions
and class predictions are present. -/
def filteredUpdate (iou_thr ignore_iof_thr : ℚ) (gt_rles_c : List Mask)
    (pred_rles_c : List Mask) (pred_ids_c : List ℤ)
    (gt_ignores : List Mask) : List ℤ × DistMatrix :=
  let D := buildDist iou_thr gt_rles_c pred_rles_c
  if 0 < gt_ignores.length ∧ 0 < pred_rles_c.length then
    ignoreFilter ignore_iof_thr pred_rles_c pred_ids_c gt_ignores D
  else
    (pred_ids_c, D)

/-- Payload of one `MOTAccumulator.update` call. -/
abbrev Update := List ℤ × List ℤ × DistMatrix

/-- Intermediate instance shortening instance search for nested lists. -/
instance decEqUpdateLists : DecidableEq (List (List Update)) := inferInstance

/-- Intermediate instance shortening instance search for nested lists. -/
instance decEqVideoAccLists : DecidableEq (List (List (List Update))) :=
  inferInstance

/-- Per-class per-frame processing (`mots.py` lines 124-159): skip empty
frames, build the cost matrix, apply the ignore filter, and call the
accumulator update unless the final matrix is 0 × 0.  `none` means the
class accumulator is left untouched for this frame. -/
def classFrameStep (iou_thr ignore_iof_thr : ℚ) (gt_rles_c : List Mask)
    (gt_ids_c : List ℤ) (pred_rles_c : List Mask) (pred_ids_c : List ℤ)
    (gt_ignores : List Mask) : Option Update :=
  if gt_rles_c.length = 0 ∧ pred_rles_c.length = 0 then none
  else if (filteredUpdate iou_thr ignore_iof_thr gt_rles_c pred_rles_c
        pred_ids_c gt_ignores).2.rows.length = 0 ∧
      (filteredUpdate iou_thr ignore_iof_thr gt_rles_c pred_rles_c
        pred_ids_c gt_ignores).2.ncols = 0 then none
  else
    some (gt_ids_c,
      (filteredUpdate iou_thr ignore_iof_thr gt_rles_c pred_rles_c
        pred_ids_c gt_ignores).1,
      (filteredUpdate iou_thr ignore_iof_thr gt_rles_c pred_rles_c
        pred_ids_c gt_ignores).2)

/-- Class selection (`mots.py` lines 114-123): masks and ids of the
objects whose class label equals `i`. -/
def selectClass (i : ℕ) (rles : List Mask) (labels : List ℕ)
    (ids : List ℤ) : List Mask × List ℤ :=
  (filterByFlags rles (labels.map (fun l => l == i)),
   filterByFlags ids (labels.map (fun l => l == i)))

/-- Per-frame processing of one class given the parsed ground-truth and
prediction tuples; the prediction-side ignore list is discarded, mirroring
the `_` binding at `mots.py` line 107. -/
def stepOfClass (iou_thr ignore_iof_thr : ℚ) (i : ℕ)
    (pp : Parsed × Parsed) : Option Update :=
  let g := selectClass i pp.1.rles pp.1.labels pp.1.ids
  let p := selectClass i pp.2.rles pp.2.labels pp.2.ids
  classFrameStep iou_thr ignore_iof_thr g.1 g.2 p.1 p.2 pp.1.ignores

/-- Frame-pair validation and parsing (`mots.py` lines 99-112): each pair
must agree on the frame index, then both sides are parsed. -/
def parseFramePairs (classes : List String) (ignore_unknown_cats : Bool)
    (image_size : Option ImageSize) :
    List (Frame × Frame) → Except EvalError (List (Parsed × Parsed))
  | [] => .ok []
  | (g, r) :: rest =>
    if g.frameIndex ≠ r.frameIndex then .error .shapeMismatch
    else
      match parse_objects classes ignore_unknown_cats image_size
          (g.labels.getD []) with
      | .error e => .error e
      | .ok pg =>
        match parse_objects classes ignore_unknown_cats image_size
            (r.labels.getD []) with
        | .error e => .error e
        | .ok pr =>
          match parseFramePairs classes ignore_unknown_cats image_size rest with
          | .error e => .error e
          | .ok tail => .ok ((pg, pr) :: tail)

/-- Per-class update sequences over the parsed frame pairs (`mots.py`
lines 113-159): class `i`'s accumulator receives exactly the updates that
`stepOfClass` emits, in frame order. -/
def classUpdates (iou_thr ignore_iof_thr : ℚ) (num_classes : ℕ)
    (pairs : List (Parsed × Parsed)) : List (List Update) :=
  (List.range num_classes).map (fun i =>
    pairs.filterMap (stepOfClass iou_thr ignore_iof_thr i))

/-- Sorting key for frames (`mots.py` lines 89-90): the frame index,
defaulting to `0` when absent. -/
def frameKey (f : Frame) : ℕ := f.frameIndex.getD 0

/-- Stable insertion of a frame into a key-sorted list, after all frames
of smaller or equal key. -/
def insertFrame (f : Frame) : List Frame → List Frame
  | [] => [f]
  | g :: rest =>
    if frameKey g ≤ frameKey f then g :: insertFrame f rest
    else f :: g :: rest

/-- Stable sort of frames by frame index (Python's `sorted`, `mots.py`
lines 93-94). -/
def sortByFrameIndex : List Frame → List Frame
  | [] => []
  | f :: rest => insertFrame f (sortByFrameIndex rest)

/-- `acc_single_video_mots` (`mots.py` lines 77-160): frame-count check,
sorting by frame index, frame-pair validation and parsing, then per-class
accumulation.  The result lists, per class, the payload of every
`MOTAccumulator.update` call.  (`label_ids_to_int` converts string ids to
integers in place; ids are modelled as integers from the start.) -/
def acc_single_video_mots (gts results : List Frame) (classes : List String)
    (iou_thr ignore_iof_thr : ℚ) (ignore_unknown_cats : Bool)
    (image_size : Option ImageSize) :
    Except EvalError (List (List Update)) :=
  if gts.length ≠ results.length then .error .shapeMismatch
  else
    match parseFramePairs classes ignore_unknown_cats image_size
        ((sortByFrameIndex gts).zip (sortByFrameIndex results)) with
    | .error e => .error e
    | .ok pairs => .ok (classUpdates iou_thr ignore_iof_thr classes.length pairs)

/-- `evaluate_seg_track` (`mots.py` lines 163-223), modelled through the
per-video accumulation stage (the downstream aggregation lives in
`mot.py`).  After the dataset-level length check, the `nproc > 1` branch
runs `acc_single_video` through `partial` applications that bind
`classes`, `ignore_iof_thr`, `ignore_unknown_cats` and `image_size` but
omit `iou_thr`, so each worker uses the callee's default `iou_thr = 1/2`;
the sequential branch passes the given `iou_thr` positionally. -/
def evaluate_seg_track (gts results : List Video) (class_names : List String)
    (iou_thr ignore_iof_thr : ℚ) (ignore_unknown_cats : Bool)
    (image_size : Option ImageSize) (nproc : ℕ) :
    Except EvalError (List (List (List Update))) :=
  if gts.length ≠ results.length then .error .shapeMismatch
  else if 1 < nproc then
    (gts.zip results).mapM (fun p =>
      acc_single_video_mots p.1 p.2 class_names (1 / 2) ignore_iof_thr
        ignore_unknown_cats image_size)
  else
    (gts.zip results).mapM (fun p =>
      acc_single_video_mots p.1 p.2 class_names iou_thr ignore_iof_thr
        ignore_unknown_cats image_size)

/-- Shape misalignment of one video pair: differing frame counts, or a
frame-index disagreement between frames paired by sorted order. -/
def videoShapeBad (g r : Video) : Bool :=
  g.length != r.length ||
    ((sortByFrameIndex g).zip (sortByFrameIndex r)).any
      (fun p => p.1.frameIndex != p.2.frameIndex)

/-- Shape misalignment of the dataset: differing video counts, or a
misaligned video pair. -/
def shapeBad (gts results : List Video) : Bool :=
  gts.length != results.length ||
    (gts.zip results).any (fun p => videoShapeBad p.1 p.2)

/-- Spec-side description of the ignore filter's survivors: prediction `p`
survives iff the assignment matched it through a finite cost entry, or no
ignore region overlaps it (by intersection over foreground) strictly beyond
the threshold. -/
def specKeep (ignore_iof_thr : ℚ) (D : DistMatrix)
    (pred_rles_c gt_ignores : List Mask) (p : ℕ) : Bool :=
  (linear_sum_assignment D).any
      (fun rc => rc.2 == p && (entry D rc.1 rc.2).isSome) ||
    !(gt_ignores.any
      (fun ig => decide (ignore_iof_thr < maskIoF (pred_rles_c.getD p ∅) ig)))

/-- Spec-side survivor flags of the ignore filter, one per prediction of
the class: kept iff matched with finite cost by the computed assignment or
overlapping no ignore region beyond the threshold. -/
def keepFlags (iou_thr ignore_iof_thr : ℚ)
    (gt_rles_c pred_rles_c gt_ignores : List Mask) : List Bool :=
  (List.range pred_rles_c.length).map
    (specKeep ignore_iof_thr (buildDist iou_thr gt_rles_c pred_rles_c)
      pred_rles_c gt_ignores)

/-- Ground truth of the divergence fixture: one video, one frame, one car
of mask `{0, 1}` with track id 5. -/
def c1gt : Video :=
  [⟨some 0, some [⟨5, "car", some {0, 1}, none, false, false⟩]⟩]

/-- Predictions of the divergence fixture: one car of mask
`{0, 1, 2, 3, 4}` (IoU `2/5` against the ground truth) with track id 7. -/
def c1res : Video :=
  [⟨some 0, some [⟨7, "car", some {0, 1, 2, 3, 4}, none, false, false⟩]⟩]

/-- Ground truth of the validation fixture: frame 0 carries an object of
the unrecognized category "person", frame 1 is empty. -/
def cexGt : Video :=
  [⟨some 0, some [⟨3, "person", some {0}, none, false, false⟩]⟩,
   ⟨some 1, none⟩]

/-- Predictions of the validation fixture: empty frames with indices 0 and
2, so the second sorted pair disagrees on the frame index. -/
def cexRes : Video := [⟨some 0, none⟩, ⟨some 2, none⟩]

/-- An object of an unrecognized category with no mask representation. -/
def c6obj : Label := ⟨1, "person", none, none, false, false⟩

/-- A recognized crowd object with a native mask. -/
def c6wObj : Label := ⟨4, "car", some {3}, none, true, false⟩

/-- An object with a polygon outline but no native mask. -/
def c7obj : Label := ⟨1, "car", none, some ⟨fun _ => {0}⟩, false, false⟩

/-- An object with neither a native mask nor a polygon outline, of an
unrecognized category. -/
def c8obj : Label := ⟨2, "person", none, none, false, false⟩

/-- A recognized crowd prediction with a native mask. -/
def c9obj : Label := ⟨9, "car", some {2}, none, true, false⟩

/-- C1 (code bug): the claim says worker count 1 and worker count `> 1`
produce the same result for every `iou_thr`.  The code does not: the
`partial` application in the `nproc > 1` branch omits `iou_thr`, so workers
fall back to the default `1/2`.  At `iou_thr = 1/4` with ground-truth mask
`{0, 1}` and prediction mask `{0, 1, 2, 3, 4}` (IoU `2/5`), the sequential
branch records a finite match cost `3/5` while the parallel branch records
an unmatchable entry, so the two runs differ. -/
theorem evaluate_seg_track_nproc_iou_thr_bug :
    evaluate_seg_track [c1gt] [c1res] ["car"] (1 / 4) (1 / 2) false none 1
        = .ok [[[([5], [7], ⟨1, [[some (3 / 5)]]⟩)]]] ∧
    evaluate_seg_track [c1gt] [c1res] ["car"] (1 / 4) (1 / 2) false none 2
        = .ok [[[([5], [7], ⟨1, [[(none : Option ℚ)]]⟩)]]] ∧
    evaluate_seg_track [c1gt] [c1res] ["car"] (1 / 4) (1 / 2) false none 2
        ≠ evaluate_seg_track [c1gt] [c1res] ["car"] (1 / 4) (1 / 2) false none 1 := by
  refine ⟨by decide, by decide, by decide⟩

/-- C3: the cost matrix has one row per ground-truth object and one column
per prediction (with the corresponding zero dimension when a side is
empty), and entry `(g, p)` is `1 - IoU(g, p)` when `IoU(g, p) ≥ iou_thr`
and the NaN sentinel when `IoU(g, p) < iou_thr`. -/
theorem mots_cost_matrix_spec (iou_thr : ℚ) (gt_rles pred_rles : List Mask) :
    (buildDist iou_thr gt_rles pred_rles).rows.length = gt_rles.length ∧
    (buildDist iou_thr gt_rles pred_rles).ncols = pred_rles.length ∧
    ∀ g p (hg : g < gt_rles.length) (hp : p < pred_rles.length),
      entry (buildDist iou_thr gt_rles pred_rles) g p =
        if iou_thr ≤ maskIoU (gt_rles.get ⟨g, hg⟩) (pred_rles.get ⟨p, hp⟩) then
          some (1 - maskIoU (gt_rles.get ⟨g, hg⟩) (pred_rles.get ⟨p, hp⟩))
        else none := by
  unfold buildDist
  split
  · next h =>
    refine ⟨by simp [h.1.symm], rfl, ?_⟩
    intro g p hg hp
    exact absurd hg (by omega)
  · split
    · next h =>
      refine ⟨by simp, h.2.symm, ?_⟩
      intro g p hg hp
      exact absurd hp (by omega)
    · next h1 h2 =>
      refine ⟨by simp, rfl, ?_⟩
      intro g p hg hp
      unfold entry
      simp only [List.get?_map, List.get?_eq_get hg, List.get?_eq_get hp,
        Option.map_some', Option.getD_some]
      set u := maskIoU (gt_rles.get ⟨g, hg⟩) (pred_rles.get ⟨p, hp⟩) with hu
      by_cases hcase : iou_thr ≤ u
      · rw [if_neg (by simp only [not_lt]; linarith), if_pos hcase]
      · rw [if_pos (by push_neg at hcase; linarith), if_neg hcase]

/-- Witness for C3 at a concrete frame: ground truth `{0}`, prediction
`{0, 1}`, IoU `1/2` at threshold `1/2`. -/
theorem mots_cost_matrix_spec_witness :
    entry (buildDist (1 / 2) [({0} : Mask)] [({0, 1} : Mask)]) 0 0 =
      if (1 / 2 : ℚ) ≤ maskIoU {0} {0, 1} then some (1 - maskIoU {0} {0, 1})
      else none :=
  (mots_cost_matrix_spec (1 / 2) [{0}] [{0, 1}]).2.2 0 0 (by decide) (by decide)

/-- C4: the per-class accumulator update is skipped exactly when the final
post-ignore-filter cost matrix is of shape 0 × 0; in particular a frame
with no ground truth and no predictions of the class, or one whose matrix
loses all columns to the ignore filter while having no rows, emits no
update and leaves the class accumulator untouched. -/
theorem mots_update_skip_iff_empty_matrix (iou_thr ignore_iof_thr : ℚ)
    (gt_rles_c : List Mask) (gt_ids_c : List ℤ) (pred_rles_c : List Mask)
    (pred_ids_c : List ℤ) (gt_ignores : List Mask) :
    classFrameStep iou_thr ignore_iof_thr gt_rles_c gt_ids_c pred_rles_c
        pred_ids_c gt_ignores = none ↔
      ((filteredUpdate iou_thr ignore_iof_thr gt_rles_c pred_rles_c
          pred_ids_c gt_ignores).2.rows.length = 0 ∧
       (filteredUpdate iou_thr ignore_iof_thr gt_rles_c pred_rles_c
          pred_ids_c gt_ignores).2.ncols = 0) := by
  unfold classFrameStep
  split
  · next h =>
    have hg : gt_rles_c = [] := List.length_eq_zero.mp h.1
    have hp : pred_rles_c = [] := List.length_eq_zero.mp h.2
    subst hg; subst hp
    simp [filteredUpdate, buildDist]
  · split
    · next h => simp [h]
    · next h => exact iff_of_false (by simp) h

/-- C7: an object with no native mask but a polygon outline makes
`parse_objects` fail with the configuration error when no canvas size is
supplied, and resolves to the rasterized polygon mask when one is. -/
theorem parse_objects_poly_rasterization (obj : Label) (rest : List Label)
    (classes : List String) (flag : Bool) (p : Poly2D)
    (hr : obj.rle = none) (hp : obj.poly2d = some p) :
    parse_objects classes flag none (obj :: rest) = .error .configError ∧
    ∀ sz : ImageSize,
      resolve_mask (some sz) obj
        = .ok (some (mask_to_rle (poly2ds_to_mask sz p))) := by
  constructor
  · simp [parse_objects, resolve_mask, hr, hp]
  · intro sz
    simp [resolve_mask, hr, hp]

/-- Witness for C7: a concrete polygon-only object fails without a canvas
size and rasterizes with one. -/
theorem parse_objects_poly_rasterization_witness :
    parse_objects ["car"] false none [c7obj] = .error .configError ∧
    resolve_mask (some ⟨2, 2⟩) c7obj
      = .ok (some (mask_to_rle (poly2ds_to_mask ⟨2, 2⟩ ⟨fun _ => {0}⟩))) := by
  have h := parse_objects_poly_rasterization c7obj [] ["car"] false
    ⟨fun _ => {0}⟩ rfl rfl
  exact ⟨h.1, h.2 ⟨2, 2⟩⟩

/-- C8: an object with neither a native mask nor a polygon outline is
silently skipped before category validation, so it can never raise the
unknown-category error even when its category is unrecognized and the
ignore-unknown flag is false. -/
theorem parse_objects_skips_maskless (obj : Label) (rest : List Label)
    (classes : List String) (flag : Bool) (size : Option ImageSize)
    (h1 : obj.rle = none) (h2 : obj.poly2d = none) :
    parse_objects classes flag size (obj :: rest)
      = parse_objects classes flag size rest := by
  simp [parse_objects, resolve_mask, h1, h2]

/-- Witness for C8: a mask-less object of the unrecognized category
"person" is skipped with the ignore-unknown flag false. -/
theorem parse_objects_skips_maskless_witness :
    parse_objects ["car"] false none [c8obj]
      = parse_objects ["car"] false none [] :=
  parse_objects_skips_maskless c8obj [] ["car"] false none rfl rfl

/-- C6 (counterexample): the claim says every object of an unrecognized
category makes `parse_objects` fail when the ignore-unknown flag is false.
An object of the unrecognized category "person" with neither a native mask
nor a polygon outline is skipped without any error instead. -/
theorem parse_objects_unknown_category_cex :
    c6obj.category ∉ ["car"] ∧
    parse_objects ["car"] false none [c6obj] = .ok ⟨[], [], [], []⟩ ∧
    parse_objects ["car"] false none [c6obj]
      ≠ .error (.unknownCategory "person") := by
  refine ⟨by decide, by decide, by decide⟩

/-- C6 (amended): for every object that resolves to a mask, an
unrecognized category fails with the unknown-category error when the
ignore-unknown flag is false and is silently dropped when it is true;
recognized crowd or ignored objects are routed to the ignore-region list;
all other recognized objects become detections tagged with their class
index and track id. -/
theorem parse_objects_category_routing (obj : Label) (rest : List Label)
    (classes : List String) (flag : Bool) (size : Option ImageSize)
    (m : Mask) (hm : resolve_mask size obj = .ok (some m)) :
    (obj.category ∉ classes → flag = false →
      parse_objects classes flag size (obj :: rest)
        = .error (.unknownCategory obj.category)) ∧
    (obj.category ∉ classes → flag = true →
      parse_objects classes flag size (obj :: rest)
        = parse_objects classes flag size rest) ∧
    (obj.category ∈ classes → (check_crowd obj || check_ignored obj) = true →
      parse_objects classes flag size (obj :: rest)
        = (parse_objects classes flag size rest).map
            (fun t => ⟨t.rles, t.labels, t.ids, m :: t.ignores⟩)) ∧
    (obj.category ∈ classes → (check_crowd obj || check_ignored obj) = false →
      parse_objects classes flag size (obj :: rest)
        = (parse_objects classes flag size rest).map
            (fun t => ⟨m :: t.rles, classes.indexOf obj.category :: t.labels,
                       obj.id :: t.ids, t.ignores⟩)) := by
  refine ⟨?_, ?_, ?_, ?_⟩
  · intro h1 h2
    subst h2
    simp [parse_objects, hm, h1]
  · intro h1 h2
    subst h2
    simp [parse_objects, hm, h1]
  · intro h1 h2
    cases hrest : parse_objects classes flag size rest with
    | error e => simp [parse_objects, hm, h1, h2, hrest, Except.map]
    | ok t => simp [parse_objects, hm, h1, h2, hrest, Except.map]
  · intro h1 h2
    cases hrest : parse_objects classes flag size rest with
    | error e => simp [parse_objects, hm, h1, h2, hrest, Except.map]
    | ok t => simp [parse_objects, hm, h1, h2, hrest, Except.map]

/-- Witness for amended C6: a concrete recognized crowd object is routed
to the ignore-region list. -/
theorem parse_objects_category_routing_witness :
    parse_objects ["car"] false none [c6wObj]
      = (parse_objects ["car"] false none []).map
          (fun t => ⟨t.rles, t.labels, t.ids, ({3} : Mask) :: t.ignores⟩) :=
  (parse_objects_category_routing c6wObj [] ["car"] false none {3}
    rfl).2.2.1 (by decide) rfl

/-- C9: a prediction-side crowd or ignored object of a recognized category
is routed to the prediction call's ignore-region list, and the per-frame
per-class processing reads only the detection components of the
prediction-side parse (the prediction ignore list is discarded), so such a
prediction is never matched, never a false positive, and never an ignore
region: only ground-truth objects contribute ignore regions. -/
theorem mots_pred_crowd_discarded (obj : Label) (m : Mask)
    (classes : List String) (flag : Bool) (size : Option ImageSize)
    (ls : List Label) (hm : obj.rle = some m) (hc : obj.category ∈ classes)
    (hcr : (check_crowd obj || check_ignored obj) = true) :
    parse_objects classes flag size (obj :: ls)
      = (parse_objects classes flag size ls).map
          (fun t => ⟨t.rles, t.labels, t.ids, m :: t.ignores⟩) ∧
    ∀ (iou_thr ignore_iof_thr : ℚ) (i : ℕ) (g t : Parsed),
      stepOfClass iou_thr ignore_iof_thr i
          (g, ⟨t.rles, t.labels, t.ids, m :: t.ignores⟩)
        = stepOfClass iou_thr ignore_iof_thr i (g, t) := by
  constructor
  · have hres : resolve_mask size obj = .ok (some m) := by
      simp [resolve_mask, hm]
    cases hrest : parse_objects classes flag size ls with
    | error e => simp [parse_objects, hres, hc, hcr, hrest, Except.map]
    | ok t => simp [parse_objects, hres, hc, hcr, hrest, Except.map]
  · intro iou_thr ignore_iof_thr i g t
    rfl

/-- Witness for C9: a concrete crowd prediction is routed to the discarded
ignore list, and the per-class step is unchanged by that list. -/
theorem mots_pred_crowd_discarded_witness :
    parse_objects ["car"] false none [c9obj]
      = (parse_objects ["car"] false none []).map
          (fun t => ⟨t.rles, t.labels, t.ids, ({2} : Mask) :: t.ignores⟩) ∧
    stepOfClass (1 / 2) (1 / 2) 0 (⟨[], [], [], []⟩, ⟨[], [], [], [{2}]⟩)
      = stepOfClass (1 / 2) (1 / 2) 0 (⟨[], [], [], []⟩, ⟨[], [], [], []⟩) := by
  have h := mots_pred_crowd_discarded c9obj {2} ["car"] false none []
    rfl (by decide) rfl
  exact ⟨h.1, h.2 (1 / 2) (1 / 2) 0 ⟨[], [], [], []⟩ ⟨[], [], [], []⟩⟩

/-- Helper: picking `k` distinct values from a pool of at least `k` is
always possible. -/
theorem injections_ne_nil (k : ℕ) :
    ∀ avail : List ℕ, k ≤ avail.length → injections k avail ≠ [] := by
  induction k with
  | zero =>
    intro avail h
    simp [injections]
  | succ n ih =>
    intro avail h
    cases avail with
    | nil => simp at h
    | cons c rest =>
      intro hcontra
      unfold injections at hcontra
      rw [List.flatMap_eq_nil_iff] at hcontra
      have hc := hcontra c (List.mem_cons_self c rest)
      rw [List.map_eq_nil_iff] at hc
      refine ih ((c :: rest).erase c) ?_ hc
      rw [List.erase_cons_head]
      simpa using h

/-- Helper: the assignment enumeration of any rectangular shape is
nonempty. -/
theorem assignmentsOf_ne_nil (m n : ℕ) : assignmentsOf m n ≠ [] := by
  unfold assignmentsOf
  split
  · next h =>
    intro hc
    rw [List.map_eq_nil_iff] at hc
    exact injections_ne_nil m (List.range n) (by simpa using h) hc
  · next h =>
    intro hc
    rw [List.map_eq_nil_iff] at hc
    exact injections_ne_nil n (List.range m) (by simp; omega) hc

/-- Helper: the computed assignment belongs to the enumeration and
minimizes the (expensive-edge-completed) cost over it. -/
theorem linear_sum_assignment_spec (D : DistMatrix) :
    linear_sum_assignment D ∈ assignmentsOf D.rows.length D.ncols ∧
    ∀ a ∈ assignmentsOf D.rows.length D.ncols,
      assignCost D (linear_sum_assignment D) ≤ assignCost D a := by
  unfold linear_sum_assignment
  cases h : (assignmentsOf D.rows.length D.ncols).argmin (assignCost D) with
  | none => exact absurd (List.argmin_eq_none.mp h) (assignmentsOf_ne_nil _ _)
  | some s =>
    simp only [Option.getD_some]
    exact ⟨List.argmin_mem h, fun a ha => List.le_of_mem_argmin ha h⟩

/-- Helper: element-wise description of the false-positive-flag fold. -/
theorem computeFps_fold_getElem? (D : DistMatrix) (sol : List (ℕ × ℕ)) :
    ∀ (init : List Bool) (p : ℕ),
      (sol.foldl (fun fps rc =>
          if (entry D rc.1 rc.2).isSome then fps.set rc.2 false else fps)
        init)[p]? =
      (init[p]?).map (fun b =>
        b && !(sol.any (fun rc => rc.2 == p && (entry D rc.1 rc.2).isSome))) := by
  induction sol with
  | nil =>
    intro init p
    simp only [List.foldl_nil, List.any_nil]
    cases h : init[p]? <;> simp [h]
  | cons rc rest ih =>
    intro init p
    simp only [List.foldl_cons, List.any_cons]
    rw [ih]
    by_cases h1 : (entry D rc.1 rc.2).isSome
    · rw [if_pos h1]
      by_cases h2 : rc.2 = p
      · subst h2
        by_cases hlt : rc.2 < init.length
        · rw [List.getElem?_set_self hlt]
          obtain ⟨b, hb⟩ : ∃ b, init[rc.2]? = some b :=
            ⟨init[rc.2], List.getElem?_eq_getElem hlt⟩
          rw [hb]
          simp [h1]
        · have hnone : init[rc.2]? = none := by
            rw [List.getElem?_eq_none_iff]
            omega
          have hnone' : (init.set rc.2 false)[rc.2]? = none := by
            rw [List.getElem?_eq_none_iff]
            simpa using hnone
          rw [hnone, hnone']
          simp
      · rw [List.getElem?_set_ne (by omega)]
        have hbeq : (rc.2 == p) = false := by
          simpa using h2
        cases h : init[p]? <;> simp [hbeq, h]
    · rw [if_neg h1]
      have hsome : (entry D rc.1 rc.2).isSome = false := by
        simpa using h1
      cases h : init[p]? <;> simp [hsome, h]

/-- Helper: the survivor flags of the ignore filter coincide with the
spec-side keep flags. -/
theorem validFlags_eq_keepFlags (iou_thr ignore_iof_thr : ℚ)
    (gt_rles_c pred_rles_c gt_ignores : List Mask) :
    validFlags ignore_iof_thr pred_rles_c gt_ignores
        (buildDist iou_thr gt_rles_c pred_rles_c)
      = keepFlags iou_thr ignore_iof_thr gt_rles_c pred_rles_c gt_ignores := by
  apply List.ext_getElem?
  intro i
  unfold validFlags keepFlags computeFps iofIgnoreFlags
  rw [List.getElem?_zipWith', computeFps_fold_getElem?, List.getElem?_map,
    List.getElem?_map]
  by_cases hi : i < pred_rles_c.length
  · have hrepl : (List.replicate pred_rles_c.length true)[i]? = some true :=
      List.getElem?_replicate_of_lt hi
    rw [hrepl, List.getElem?_range hi]
    cases hpm : pred_rles_c[i]? with
    | none =>
      rw [List.getElem?_eq_none_iff] at hpm
      omega
    | some pm =>
      have hgetD : pred_rles_c.getD i ∅ = pm := by
        simp [hpm]
      simp only [Option.map_some', Option.bind_some, specKeep, hgetD,
        Bool.true_and]
      cases hany : (linear_sum_assignment
          (buildDist iou_thr gt_rles_c pred_rles_c)).any
          (fun rc => rc.2 == i &&
            (entry (buildDist iou_thr gt_rles_c pred_rles_c) rc.1 rc.2).isSome) <;>
        cases hign : gt_ignores.any
          (fun ig => decide (ignore_iof_thr < maskIoF pm ig)) <;>
        simp [hany, hign]
  · have h1 : (List.replicate pred_rles_c.length true)[i]? = none := by
      rw [List.getElem?_replicate, if_neg hi]
    have h2 : pred_rles_c[i]? = none := by
      rw [List.getElem?_eq_none_iff]
      omega
    have h3 : (List.range pred_rles_c.length)[i]? = none := by
      rw [List.getElem?_eq_none_iff, List.length_range]
      omega
    rw [h1, h2, h3]
    simp

/-- Helper: membership in a boolean-mask selection is witnessed by an
index carrying the element and a true flag. -/
theorem mem_filterByFlags {α : Type} (xs : List α) (fl : List Bool) (x : α) :
    x ∈ filterByFlags xs fl ↔ ∃ i : ℕ, xs[i]? = some x ∧ fl[i]? = some true := by
  induction xs generalizing fl with
  | nil => simp [filterByFlags]
  | cons a xs ih =>
    cases fl with
    | nil => simp [filterByFlags]
    | cons b fl =>
      have hrec : filterByFlags (a :: xs) (b :: fl)
          = (if b then [a] else []) ++ filterByFlags xs fl := by
        cases b <;> simp [filterByFlags]
      rw [hrec]
      cases b with
      | false =>
        rw [if_neg (by simp), List.nil_append, ih]
        constructor
        · rintro ⟨i, hx, hf⟩
          exact ⟨i + 1, by simpa using hx, by simpa using hf⟩
        · rintro ⟨i, hx, hf⟩
          cases i with
          | zero => simp at hf
          | succ j => exact ⟨j, by simpa using hx, by simpa using hf⟩
      | true =>
        rw [if_pos rfl, List.singleton_append, List.mem_cons, ih]
        constructor
        · rintro (rfl | ⟨i, hx, hf⟩)
          · exact ⟨0, by simp, by simp⟩
          · exact ⟨i + 1, by simpa using hx, by simpa using hf⟩
        · rintro ⟨i, hx, hf⟩
          cases i with
          | zero =>
            left
            exact (Option.some.inj (by simpa using hx)).symm
          | succ j =>
            right
            exact ⟨j, by simpa using hx, by simpa using hf⟩

/-- C2: with at least one ignore region and at least one prediction of the
class, the frame processing solves a minimum-cost bipartite assignment over
the cost matrix first (unmatchable entries priced as infinite, so the
minimum prefers finite entries), keeps every prediction matched through a
finite entry, removes each remaining prediction whose intersection over
foreground with some ignore region strictly exceeds the threshold — its id
and cost-matrix column are dropped from the data passed to the accumulator
update — and keeps all other predictions. -/
theorem mots_ignore_filter_spec (iou_thr ignore_iof_thr : ℚ)
    (gt_rles_c pred_rles_c : List Mask) (pred_ids_c : List ℤ)
    (gt_ignores : List Mask) (hig : gt_ignores ≠ []) (hpr : pred_rles_c ≠ []) :
    (linear_sum_assignment (buildDist iou_thr gt_rles_c pred_rles_c) ∈
        assignmentsOf (buildDist iou_thr gt_rles_c pred_rles_c).rows.length
          (buildDist iou_thr gt_rles_c pred_rles_c).ncols ∧
      ∀ a ∈ assignmentsOf (buildDist iou_thr gt_rles_c pred_rles_c).rows.length
          (buildDist iou_thr gt_rles_c pred_rles_c).ncols,
        assignCost (buildDist iou_thr gt_rles_c pred_rles_c)
            (linear_sum_assignment (buildDist iou_thr gt_rles_c pred_rles_c))
          ≤ assignCost (buildDist iou_thr gt_rles_c pred_rles_c) a) ∧
    filteredUpdate iou_thr ignore_iof_thr gt_rles_c pred_rles_c pred_ids_c
        gt_ignores
      = (filterByFlags pred_ids_c
           (keepFlags iou_thr ignore_iof_thr gt_rles_c pred_rles_c gt_ignores),
         ⟨countTrue
            (keepFlags iou_thr ignore_iof_thr gt_rles_c pred_rles_c gt_ignores),
          (buildDist iou_thr gt_rles_c pred_rles_c).rows.map (fun row =>
            filterByFlags row
              (keepFlags iou_thr ignore_iof_thr gt_rles_c pred_rles_c
                gt_ignores))⟩) := by
  constructor
  · exact linear_sum_assignment_spec _
  · unfold filteredUpdate
    rw [if_pos ⟨List.length_pos.mpr hig, List.length_pos.mpr hpr⟩]
    unfold ignoreFilter
    rw [validFlags_eq_keepFlags]

/-- Witness for C2: one ground-truth mask, two predictions, one ignore
region; the first prediction is matched with finite cost and kept, the
second is unmatched with intersection over foreground 1 against the ignore
region and dropped. -/
theorem mots_ignore_filter_spec_witness :
    filteredUpdate (1 / 2) (1 / 2) [({0, 1} : Mask)] [{0, 1}, {7, 8}] [1, 2]
        [{7, 8}]
      = (filterByFlags [1, 2]
           (keepFlags (1 / 2) (1 / 2) [({0, 1} : Mask)] [{0, 1}, {7, 8}]
             [{7, 8}]),
         ⟨countTrue
            (keepFlags (1 / 2) (1 / 2) [({0, 1} : Mask)] [{0, 1}, {7, 8}]
              [{7, 8}]),
          (buildDist (1 / 2) [({0, 1} : Mask)] [{0, 1}, {7, 8}]).rows.map
            (fun row =>
              filterByFlags row
                (keepFlags (1 / 2) (1 / 2) [({0, 1} : Mask)] [{0, 1}, {7, 8}]
                  [{7, 8}]))⟩) :=
  (mots_ignore_filter_spec (1 / 2) (1 / 2) [{0, 1}] [{0, 1}, {7, 8}] [1, 2]
    [{7, 8}] (by decide) (by decide)).2

/-- Helper: a recognized crowd or ignored object's mask is pooled into the
ignore-region list of the whole frame, whatever its category. -/
theorem crowd_mem_ignores (classes : List String) (flag : Bool)
    (size : Option ImageSize) :
    ∀ (objs : List Label) (t : Parsed) (obj : Label) (m : Mask),
      parse_objects classes flag size objs = .ok t → obj ∈ objs →
      obj.rle = some m → obj.category ∈ classes →
      (check_crowd obj || check_ignored obj) = true → m ∈ t.ignores := by
  intro objs
  induction objs with
  | nil =>
    intro t obj m hok hmem
    simp at hmem
  | cons o rest ih =>
    intro t obj m hok hmem hrle hcat hcrowd
    rw [List.mem_cons] at hmem
    rw [parse_objects] at hok
    split at hok
    · exact absurd hok (by simp)
    · next heq =>
      rcases hmem with rfl | hmem
      · simp [resolve_mask, hrle] at heq
      · exact ih t obj m hok hmem hrle hcat hcrowd
    · next rle heq =>
      split at hok
      · next hoc =>
        split at hok
        · exact absurd hok (by simp)
        · next t2 hrest =>
          split at hok
          · next hocrowd =>
            have ht : t = ⟨t2.rles, t2.labels, t2.ids, rle :: t2.ignores⟩ :=
              (Except.ok.inj hok).symm
            rcases hmem with rfl | hmem
            · have hm : m = rle := by
                simp only [resolve_mask, hrle] at heq
                exact Option.some.inj (Except.ok.inj heq)
              rw [ht, hm]
              exact List.mem_cons_self _ _
            · rw [ht]
              exact List.mem_cons_of_mem _
                (ih t2 obj m hrest hmem hrle hcat hcrowd)
          · next hocrowd =>
            have ht : t = ⟨rle :: t2.rles,
                classes.indexOf o.category :: t2.labels,
                o.id :: t2.ids, t2.ignores⟩ :=
              (Except.ok.inj hok).symm
            rcases hmem with rfl | hmem
            · exact absurd hcrowd hocrowd
            · rw [ht]
              exact ih t2 obj m hrest hmem hrle hcat hcrowd
      · next hoc =>
        split at hok
        · rcases hmem with rfl | hmem
          · exact absurd hcat hoc
          · exact ih t obj m hok hmem hrle hcat hcrowd
        · exact absurd hok (by simp)

/-- C10: ignore regions are pooled across all recognized categories — a
crowd or ignored ground-truth object of any recognized category lands in
the frame's single ignore list — and during the per-class loop that pooled
list suppresses unmatched predictions of any class: an unmatched
prediction overlapping such a region beyond the threshold is excluded from
the ids passed to the accumulator, even when the region's category differs
from the prediction's class. -/
theorem mots_ignore_regions_cross_class (classes : List String) (flag : Bool)
    (size : Option ImageSize) (gtObjs : List Label) (gp : Parsed)
    (crowdObj : Label) (cm : Mask)
    (hok : parse_objects classes flag size gtObjs = .ok gp)
    (hmem : crowdObj ∈ gtObjs) (hrle : crowdObj.rle = some cm)
    (hcat : crowdObj.category ∈ classes)
    (hcrowd : (check_crowd crowdObj || check_ignored crowdObj) = true)
    (iou_thr ignore_iof_thr : ℚ) (gt_rles_c pred_rles_c : List Mask)
    (pred_ids_c : List ℤ) (p : ℕ) (hp : p < pred_rles_c.length)
    (hlen : pred_ids_c.length = pred_rles_c.length) (hnd : pred_ids_c.Nodup)
    (hunm : (linear_sum_assignment
        (buildDist iou_thr gt_rles_c pred_rles_c)).any
        (fun rc => rc.2 == p &&
          (entry (buildDist iou_thr gt_rles_c pred_rles_c) rc.1 rc.2).isSome)
        = false)
    (hiof : ignore_iof_thr < maskIoF (pred_rles_c.getD p ∅) cm) :
    cm ∈ gp.ignores ∧
    pred_ids_c.getD p 0 ∉
      (ignoreFilter ignore_iof_thr pred_rles_c pred_ids_c gp.ignores
        (buildDist iou_thr gt_rles_c pred_rles_c)).1 := by
  have hcm : cm ∈ gp.ignores :=
    crowd_mem_ignores classes flag size gtObjs gp crowdObj cm hok hmem hrle
      hcat hcrowd
  refine ⟨hcm, ?_⟩
  intro hmem2
  unfold ignoreFilter at hmem2
  rw [validFlags_eq_keepFlags, mem_filterByFlags] at hmem2
  obtain ⟨j, hj1, hj2⟩ := hmem2
  have hjlt : j < pred_rles_c.length := by
    by_contra hge
    have hlenk : (keepFlags iou_thr ignore_iof_thr gt_rles_c pred_rles_c
        gp.ignores).length ≤ j := by
      simp only [keepFlags, List.length_map, List.length_range]
      omega
    rw [List.getElem?_eq_none hlenk] at hj2
    exact absurd hj2 (by simp)
  have hkeepj : specKeep ignore_iof_thr
      (buildDist iou_thr gt_rles_c pred_rles_c) pred_rles_c gp.ignores j
        = true := by
    unfold keepFlags at hj2
    rw [List.getElem?_map, List.getElem?_range hjlt] at hj2
    simpa using hj2
  have hplt : p < pred_ids_c.length := by omega
  have hv : pred_ids_c[p]? = some (pred_ids_c.getD p 0) := by
    rw [List.getElem?_eq_getElem hplt, List.getD_eq_getElem?_getD,
      List.getElem?_eq_getElem hplt]
    rfl
  have hjp : j = p :=
    List.getElem?_inj (by omega) hnd (hj1.trans hv.symm)
  subst hjp
  unfold specKeep at hkeepj
  rw [hunm] at hkeepj
  simp only [Bool.false_or] at hkeepj
  have htrue : gp.ignores.any
      (fun ig => decide (ignore_iof_thr < maskIoF (pred_rles_c.getD j ∅) ig))
        = true :=
    List.any_eq_true.mpr ⟨cm, hcm, decide_eq_true hiof⟩
  rw [htrue] at hkeepj
  exact absurd hkeepj (by simp)

/-- Witness for C10: a crowd region of category "a" suppresses an
unmatched prediction of category "b". -/
theorem mots_ignore_regions_cross_class_witness :
    ({0, 1} : Mask) ∈ (⟨[], [], [], [{0, 1}]⟩ : Parsed).ignores ∧
    ((7 : ℤ)) ∉
      (ignoreFilter (1 / 2) [({0, 1} : Mask)] [(7 : ℤ)]
        (⟨[], [], [], [{0, 1}]⟩ : Parsed).ignores
        (buildDist (1 / 2) [] [({0, 1} : Mask)])).1 :=
  mots_ignore_regions_cross_class ["a", "b"] false none
    [⟨3, "a", some {0, 1}, none, true, false⟩] ⟨[], [], [], [{0, 1}]⟩
    ⟨3, "a", some {0, 1}, none, true, false⟩ {0, 1} (by decide)
    (List.mem_singleton_self _) rfl (by decide) rfl (1 / 2) (1 / 2) []
    [{0, 1}] [7] 0 (by decide) rfl (by decide) (by decide) (by decide)

/-- Helper: membership through stable insertion. -/
theorem mem_insertFrame (f g : Frame) :
    ∀ l : List Frame, g ∈ insertFrame f l ↔ g = f ∨ g ∈ l := by
  intro l
  induction l with
  | nil => simp [insertFrame]
  | cons h t ih =>
    rw [insertFrame]
    split
    · rw [List.mem_cons, ih, List.mem_cons]
      tauto
    · simp only [List.mem_cons]

/-- Helper: sorting frames by index preserves membership. -/
theorem mem_sortByFrameIndex (g : Frame) :
    ∀ v : List Frame, g ∈ sortByFrameIndex v ↔ g ∈ v := by
  intro v
  induction v with
  | nil => simp [sortByFrameIndex]
  | cons f t ih =>
    rw [sortByFrameIndex, mem_insertFrame, ih, List.mem_cons]

/-- Helper: when every frame pair parses, the frame-pair pass fails with
the shape-mismatch error exactly on a frame-index disagreement, and
succeeds otherwise. -/
theorem parseFramePairs_char (classes : List String) (flag : Bool)
    (size : Option ImageSize) :
    ∀ ps : List (Frame × Frame),
      (∀ q ∈ ps,
        (∃ t, parse_objects classes flag size (q.1.labels.getD []) = .ok t) ∧
        (∃ t, parse_objects classes flag size (q.2.labels.getD []) = .ok t)) →
      ((ps.any (fun q => q.1.frameIndex != q.2.frameIndex) = true →
        parseFramePairs classes flag size ps = .error .shapeMismatch) ∧
       (ps.any (fun q => q.1.frameIndex != q.2.frameIndex) = false →
        ∃ out, parseFramePairs classes flag size ps = .ok out)) := by
  intro ps
  induction ps with
  | nil =>
    intro _
    constructor
    · intro h
      simp at h
    · intro _
      exact ⟨[], rfl⟩
  | cons q rest ih =>
    intro hok
    obtain ⟨g, r⟩ := q
    obtain ⟨⟨tg, htg⟩, ⟨tr, htr⟩⟩ := hok (g, r) (List.mem_cons_self _ _)
    have ihr := ih (fun p hp => hok p (List.mem_cons_of_mem _ hp))
    constructor
    · intro hany
      rw [parseFramePairs]
      by_cases hidx : g.frameIndex = r.frameIndex
      · rw [if_neg (by simp [hidx])]
        have hrest : rest.any (fun p => p.1.frameIndex != p.2.frameIndex)
            = true := by
          rw [List.any_cons] at hany
          simpa [hidx] using hany
        simp only [htg, htr, ihr.1 hrest]
      · rw [if_pos hidx]
    · intro hany
      rw [List.any_cons, Bool.or_eq_false_iff] at hany
      have hidx : g.frameIndex = r.frameIndex := by
        simpa using hany.1
      obtain ⟨tail, htail⟩ := ihr.2 hany.2
      refine ⟨(tg, tr) :: tail, ?_⟩
      rw [parseFramePairs, if_neg (by simp [hidx])]
      simp only [htg, htr, htail]

/-- Helper: when every frame of the video pair parses, the single-video
accumulation fails with the shape-mismatch error exactly on a shape
misalignment, and succeeds otherwise. -/
theorem acc_single_video_char (classes : List String)
    (iou_thr ignore_iof_thr : ℚ) (flag : Bool) (size : Option ImageSize)
    (g r : Video)
    (hok : ∀ f : Frame, f ∈ g ∨ f ∈ r →
      ∃ t, parse_objects classes flag size (f.labels.getD []) = .ok t) :
    (videoShapeBad g r = true →
      acc_single_video_mots g r classes iou_thr ignore_iof_thr flag size
        = .error .shapeMismatch) ∧
    (videoShapeBad g r = false →
      ∃ out, acc_single_video_mots g r classes iou_thr ignore_iof_thr flag size
        = .ok out) := by
  have hpairs : ∀ q ∈ (sortByFrameIndex g).zip (sortByFrameIndex r),
      (∃ t, parse_objects classes flag size (q.1.labels.getD []) = .ok t) ∧
      (∃ t, parse_objects classes flag size (q.2.labels.getD []) = .ok t) := by
    intro q hq
    obtain ⟨a, b⟩ := q
    obtain ⟨h1, h2⟩ := List.of_mem_zip hq
    exact ⟨hok a (Or.inl ((mem_sortByFrameIndex a g).mp h1)),
           hok b (Or.inr ((mem_sortByFrameIndex b r).mp h2))⟩
  have hchar := parseFramePairs_char classes flag size
    ((sortByFrameIndex g).zip (sortByFrameIndex r)) hpairs
  constructor
  · intro hbad
    unfold acc_single_video_mots
    by_cases hlen : g.length = r.length
    · rw [if_neg (by simp [hlen])]
      have hany : ((sortByFrameIndex g).zip (sortByFrameIndex r)).any
          (fun p => p.1.frameIndex != p.2.frameIndex) = true := by
        unfold videoShapeBad at hbad
        simpa [hlen] using hbad
      simp only [hchar.1 hany]
    · rw [if_pos (by simpa using hlen)]
  · intro hgood
    unfold videoShapeBad at hgood
    rw [Bool.or_eq_false_iff] at hgood
    have hlen : g.length = r.length := by
      simpa using hgood.1
    obtain ⟨pairs, hpairs2⟩ := hchar.2 hgood.2
    unfold acc_single_video_mots
    rw [if_neg (by simp [hlen])]
    exact ⟨classUpdates iou_thr ignore_iof_thr classes.length pairs,
      by simp only [hpairs2]⟩

/-- Helper: mapping the single-video accumulation over aligned video pairs
fails with the shape-mismatch error exactly when some pair is misaligned
(all frames parsing), and succeeds otherwise. -/
theorem mapM_acc_char (classes : List String) (iou_thr ignore_iof_thr : ℚ)
    (flag : Bool) (size : Option ImageSize) :
    ∀ vs : List (Video × Video),
      (∀ q ∈ vs, ∀ f : Frame, f ∈ q.1 ∨ f ∈ q.2 →
        ∃ t, parse_objects classes flag size (f.labels.getD []) = .ok t) →
      ((vs.any (fun p => videoShapeBad p.1 p.2) = true →
        vs.mapM (fun p =>
          acc_single_video_mots p.1 p.2 classes iou_thr ignore_iof_thr flag
            size) = .error .shapeMismatch) ∧
       (vs.any (fun p => videoShapeBad p.1 p.2) = false →
        ∃ out, vs.mapM (fun p =>
          acc_single_video_mots p.1 p.2 classes iou_thr ignore_iof_thr flag
            size) = .ok out)) := by
  intro vs
  induction vs with
  | nil =>
    intro _
    constructor
    · intro h
      simp at h
    · intro _
      exact ⟨[], rfl⟩
  | cons q rest ih =>
    intro hok
    obtain ⟨a, b⟩ := q
    have hq := acc_single_video_char classes iou_thr ignore_iof_thr flag size
      a b (hok (a, b) (List.mem_cons_self _ _))
    have ihr := ih (fun p hp => hok p (List.mem_cons_of_mem _ hp))
    constructor
    · intro hany
      rw [List.mapM_cons]
      cases hb : videoShapeBad a b with
      | true =>
        simp only [hq.1 hb]
        rfl
      | false =>
        obtain ⟨x, hx⟩ := hq.2 hb
        have hrest : rest.any (fun p => videoShapeBad p.1 p.2) = true := by
          rw [List.any_cons] at hany
          simpa [hb] using hany
        simp only [hx, ihr.1 hrest]
        rfl
    · intro hany
      rw [List.any_cons, Bool.or_eq_false_iff] at hany
      obtain ⟨x, hx⟩ := hq.2 hany.1
      obtain ⟨xs, hxs⟩ := ihr.2 hany.2
      refine ⟨x :: xs, ?_⟩
      rw [List.mapM_cons]
      simp only [hx, hxs]
      rfl

/-- C5 (counterexample): the claim says the evaluation fails with the
shape-mismatch error whenever two sorted-paired frames disagree on the
frame index.  On this fixture the second frame pair disagrees (indices 1
and 2), yet the run fails with the unknown-category error raised while
parsing the first frame, because frame-index checks interleave with
per-frame parsing. -/
theorem mots_shape_validation_cex :
    shapeBad [cexGt] [cexRes] = true ∧
    evaluate_seg_track [cexGt] [cexRes] ["car"] (1 / 2) (1 / 2) false none 1
      = .error (.unknownCategory "person") ∧
    evaluate_seg_track [cexGt] [cexRes] ["car"] (1 / 2) (1 / 2) false none 1
      ≠ .error .shapeMismatch := by
  refine ⟨by decide, by decide, by decide⟩

/-- C5 (amended): provided every frame's objects parse without error (no
unknown-category or missing-canvas failure), the evaluation fails with the
shape-mismatch error exactly when the video counts differ, a matched video
pair has different frame counts, or two sorted-paired frames carry
different frame indices; it succeeds otherwise.  Without that proviso, a
parse error raised on an earlier frame preempts a later frame-index
mismatch. -/
theorem mots_shape_validation (gts results : List Video)
    (classes : List String) (iou_thr ignore_iof_thr : ℚ) (flag : Bool)
    (size : Option ImageSize) (nproc : ℕ)
    (hok : ∀ v : Video, v ∈ gts ∨ v ∈ results → ∀ f ∈ v,
      ∃ t, parse_objects classes flag size (f.labels.getD []) = .ok t) :
    (evaluate_seg_track gts results classes iou_thr ignore_iof_thr flag size
        nproc = .error .shapeMismatch ↔ shapeBad gts results = true) ∧
    (shapeBad gts results = false →
      ∃ out, evaluate_seg_track gts results classes iou_thr ignore_iof_thr
        flag size nproc = .ok out) := by
  have hzip : ∀ q ∈ gts.zip results, ∀ f : Frame, f ∈ q.1 ∨ f ∈ q.2 →
      ∃ t, parse_objects classes flag size (f.labels.getD []) = .ok t := by
    intro q hq f hf
    obtain ⟨a, b⟩ := q
    obtain ⟨h1, h2⟩ := List.of_mem_zip hq
    rcases hf with hf | hf
    · exact hok a (Or.inl h1) f hf
    · exact hok b (Or.inr h2) f hf
  unfold evaluate_seg_track
  by_cases hlen : gts.length = results.length
  · rw [if_neg (by simp [hlen])]
    have hshape : shapeBad gts results
        = (gts.zip results).any (fun p => videoShapeBad p.1 p.2) := by
      unfold shapeBad
      simp [hlen]
    by_cases hnp : 1 < nproc
    · rw [if_pos hnp]
      have hm := mapM_acc_char classes (1 / 2) ignore_iof_thr flag size
        (gts.zip results) hzip
      rw [hshape]
      constructor
      · constructor
        · intro herr
          cases hb : (gts.zip results).any (fun p => videoShapeBad p.1 p.2) with
          | true => rfl
          | false =>
            obtain ⟨out, hout⟩ := hm.2 hb
            rw [hout] at herr
            exact absurd herr (by simp)
        · exact hm.1
      · exact hm.2
    · rw [if_neg hnp]
      have hm := mapM_acc_char classes iou_thr ignore_iof_thr flag size
        (gts.zip results) hzip
      rw [hshape]
      constructor
      · constructor
        · intro herr
          cases hb : (gts.zip results).any (fun p => videoShapeBad p.1 p.2) with
          | true => rfl
          | false =>
            obtain ⟨out, hout⟩ := hm.2 hb
            rw [hout] at herr
            exact absurd herr (by simp)
        · exact hm.1
      · exact hm.2
  · rw [if_pos (by simpa using hlen)]
    have hshape : shapeBad gts results = true := by
      unfold shapeBad
      simp [hlen]
    constructor
    · rw [hshape]
      exact iff_of_true rfl rfl
    · intro hgood
      rw [hshape] at hgood
      exact absurd hgood (by simp)

/-- Witness for amended C5: on aligned single-frame videos with parsable
(empty) object lists the evaluation succeeds. -/
theorem mots_shape_validation_witness :
    ∃ out, evaluate_seg_track [[⟨some 0, none⟩]] [[⟨some 0, none⟩]] ["car"]
      (1 / 2) (1 / 2) false none 1 = .ok out := by
  have h := mots_shape_validation [[⟨some 0, none⟩]] [[⟨some 0, none⟩]]
    ["car"] (1 / 2) (1 / 2) false none 1 ?_
  · exact h.2 (by decide)
  · intro v hv f hf
    have hv2 : v = [⟨some 0, none⟩] := by
      rcases hv with hv | hv <;> simpa using hv
    subst hv2
    have hf2 : f = ⟨some 0, none⟩ := by simpa using hf
    subst hf2
    exact ⟨⟨[], [], [], []⟩, rfl⟩

end ScalabelMots
